import Mathlib

/-!
Verification of the media-cache, route-handler, and elements logic of the
zavira-image-gen repository, shallowly embedded from the TypeScript source
(`src/lib/supabase.ts`, `src/app/api/generate/route.ts`, the streaming and
optimized generation routes, `src/utils/elementUtils.ts`, and the elements
SQL migration).
-/

namespace Zavira

/-! ### Layer 1: the in-memory cache (src/lib/supabase.ts)

The JS `Map<string, string>` is modelled as an association list in insertion
order (head = oldest).  `Map.set` updates an existing key in place (keeping
its position) and otherwise appends; `Map.delete` removes the entry with the
key. -/

abbrev MemCache := List (String × String)

def MAX_MEMORY_CACHE : Nat := 100

/-- JS `Map.set`: overwrite in place when the key is present, else append. -/
def mapSet (m : MemCache) (k v : String) : MemCache :=
  if m.any (fun p => p.1 == k) then
    m.map (fun p => if p.1 == k then (k, v) else p)
  else
    m ++ [(k, v)]

/-- JS `Map.delete`: remove the (first) entry with the key. -/
def mapDelete (m : MemCache) (k : String) : MemCache :=
  m.eraseP (fun p => p.1 == k)

/-- JS `String.prototype.startsWith`, as a computable prefix test on the
underlying character list. -/
def strStartsWith (s pre : String) : Bool := pre.data.isPrefixOf s.data

/-- `addToMemoryCache` from src/lib/supabase.ts.  Returns the new cache
together with the list of object URLs passed to `URL.revokeObjectURL`.
The JS guards `if (firstKey)` and `if (oldBlobUrl && ...)` are truthiness
tests, false for the empty string. -/
def addToMemoryCache (m : MemCache) (url blobUrl : String) : MemCache × List String :=
  if MAX_MEMORY_CACHE ≤ m.length then
    match m.head? with
    | some (firstKey, oldBlobUrl) =>
      if firstKey = "" then
        (mapSet m url blobUrl, [])
      else
        (mapSet (mapDelete m firstKey) url blobUrl,
         if oldBlobUrl ≠ "" ∧ strStartsWith oldBlobUrl "blob:" then [oldBlobUrl] else [])
    | none => (mapSet m url blobUrl, [])
  else
    (mapSet m url blobUrl, [])

/-- Raw lookup in the JS `Map`. -/
def memLookup (m : MemCache) (k : String) : Option String :=
  (m.find? (fun p => p.1 == k)).map (fun p => p.2)

/-- `getFromMemoryCache`: `memoryCache.get(url) || null`, so an empty-string
value is coerced to `null`. -/
def getFromMemoryCache (m : MemCache) (url : String) : Option String :=
  match memLookup m url with
  | some b => if b = "" then none else some b
  | none => none

/-- Fold a sequence of insertions into the memory cache, starting empty. -/
def runInserts (m : MemCache) (ps : List (String × String)) : MemCache :=
  ps.foldl (fun acc p => (addToMemoryCache acc p.1 p.2).1) m

/-- 100 pairwise distinct one-character URLs used in concrete scenarios. -/
def cexUrls : List String := (List.range 100).map (fun i => String.mk [Char.ofNat (65 + i)])

/-- An insertion sequence starting with the empty-string key: the truthiness
guard `if (firstKey)` then blocks every eviction. -/
def c1cexSeq : List (String × String) := ("", "b") :: cexUrls.map (fun u => (u, "b"))

theorem mem_mapSet_eq {m : MemCache} {k v : String} {p : String × String}
    (hp : p ∈ mapSet m k v) (hk : p.1 = k) : p.2 = v := by
  unfold mapSet at hp
  split at hp
  case isTrue hany =>
    rcases List.mem_map.mp hp with ⟨q, hq, hpq⟩
    by_cases h : q.1 = k
    · rw [if_pos (by simpa using h)] at hpq
      rw [← hpq]
    · rw [if_neg (by simpa using h)] at hpq
      subst hpq
      exact absurd hk h
  case isFalse hany =>
    rcases List.mem_append.mp hp with h | h
    · exfalso
      simp only [List.any_eq_true, not_exists, not_and] at hany
      exact hany p h (by simpa using hk)
    · simp only [List.mem_singleton] at h
      rw [h]

theorem mem_mapSet_ne {m : MemCache} {k v : String} {p : String × String}
    (hp : p ∈ mapSet m k v) (hk : p.1 ≠ k) : p ∈ m := by
  unfold mapSet at hp
  split at hp
  case isTrue hany =>
    rcases List.mem_map.mp hp with ⟨q, hq, hpq⟩
    by_cases h : q.1 = k
    · rw [if_pos (by simpa using h)] at hpq
      rw [← hpq] at hk
      exact absurd rfl hk
    · rw [if_neg (by simpa using h)] at hpq
      rw [← hpq]
      exact hq
  case isFalse hany =>
    rcases List.mem_append.mp hp with h | h
    · exact h
    · simp only [List.mem_singleton] at h
      rw [h] at hk
      exact absurd rfl hk

theorem mem_mapSet_cases {m : MemCache} {k v : String} {p : String × String}
    (hp : p ∈ mapSet m k v) : p.1 = k ∨ p ∈ m := by
  by_cases h : p.1 = k
  · exact Or.inl h
  · exact Or.inr (mem_mapSet_ne hp h)

theorem length_mapSet_le (m : MemCache) (k v : String) :
    (mapSet m k v).length ≤ m.length + 1 := by
  unfold mapSet
  split
  · simp
  · simp

/-- The first component of `addToMemoryCache` is always a `mapSet` of a
sub-collection of the original entries. -/
theorem addToMemoryCache_shape (m : MemCache) (url blobUrl : String) :
    ∃ m' : MemCache, (∀ p ∈ m', p ∈ m) ∧
      (addToMemoryCache m url blobUrl).1 = mapSet m' url blobUrl := by
  unfold addToMemoryCache
  split
  · match m with
    | [] => exact ⟨[], by simp, rfl⟩
    | (fk, fb) :: t =>
      by_cases h : fk = ""
      · refine ⟨(fk, fb) :: t, fun p hp => hp, ?_⟩
        simp [h]
      · refine ⟨mapDelete ((fk, fb) :: t) fk, ?_, ?_⟩
        · exact fun p hp => (List.eraseP_sublist _).subset hp
        · simp [h]
  · exact ⟨m, fun p hp => hp, rfl⟩

theorem keys_addToMemoryCache {m : MemCache} {url blobUrl : String}
    (hk : ∀ p ∈ m, p.1 ≠ "") (hurl : url ≠ "") :
    ∀ p ∈ (addToMemoryCache m url blobUrl).1, p.1 ≠ "" := by
  intro p hp
  obtain ⟨m', hm', heq⟩ := addToMemoryCache_shape m url blobUrl
  rw [heq] at hp
  rcases mem_mapSet_cases hp with h | h
  · rw [h]; exact hurl
  · exact hk p (hm' p h)

theorem length_addToMemoryCache {m : MemCache} (url blobUrl : String)
    (hk : ∀ p ∈ m, p.1 ≠ "") (hlen : m.length ≤ MAX_MEMORY_CACHE) :
    (addToMemoryCache m url blobUrl).1.length ≤ MAX_MEMORY_CACHE := by
  unfold addToMemoryCache
  split
  case isTrue hcap =>
    match m, hk, hlen, hcap with
    | [], _, _, hcap => simp [MAX_MEMORY_CACHE] at hcap
    | (fk, fb) :: t, hk, hlen, hcap =>
      have hfk : fk ≠ "" := hk (fk, fb) (List.mem_cons_self _ _)
      simp only [List.head?_cons]
      rw [if_neg hfk]
      have ht : mapDelete ((fk, fb) :: t) fk = t := by
        unfold mapDelete
        exact List.eraseP_cons_of_pos (by simp)
      rw [ht]
      have h1 : (mapSet t url blobUrl).length ≤ t.length + 1 := length_mapSet_le t url blobUrl
      have h2 : t.length + 1 ≤ MAX_MEMORY_CACHE := by
        simpa using hlen
      exact le_trans h1 h2
  case isFalse hcap =>
    have h1 : (mapSet m url blobUrl).length ≤ m.length + 1 := length_mapSet_le m url blobUrl
    have h2 : m.length + 1 ≤ MAX_MEMORY_CACHE := by omega
    exact le_trans h1 h2

theorem runInserts_good (ps : List (String × String)) :
    ∀ m : MemCache, (∀ p ∈ m, p.1 ≠ "") → m.length ≤ MAX_MEMORY_CACHE →
      (∀ p ∈ ps, p.1 ≠ "") →
      (∀ p ∈ runInserts m ps, p.1 ≠ "") ∧ (runInserts m ps).length ≤ MAX_MEMORY_CACHE := by
  induction ps with
  | nil => intro m hk hlen _; exact ⟨hk, hlen⟩
  | cons q qs ih =>
    intro m hk hlen hps
    have hq : q.1 ≠ "" := hps q (List.mem_cons_self _ _)
    have hk' := @keys_addToMemoryCache m q.1 q.2 hk hq
    have hlen' := @length_addToMemoryCache m q.1 q.2 hk hlen
    have := ih ((addToMemoryCache m q.1 q.2).1) hk' hlen'
      (fun p hp => hps p (List.mem_cons_of_mem _ hp))
    simpa [runInserts] using this

set_option maxRecDepth 10000 in
/-- Claim C1 fails as stated: with the empty string as the first-inserted key,
the JS truthiness guard `if (firstKey)` skips eviction, so the cache grows past
100 entries. -/
theorem c1_counterexample : ¬ ((runInserts [] c1cexSeq).length ≤ MAX_MEMORY_CACHE) := by
  decide

/-- Claim C1 (amended): provided every inserted URL key is nonempty, any
sequence of `addToMemoryCache` calls starting from the empty cache keeps at
most 100 entries; and at capacity, when the oldest key is nonempty, the
first-inserted entry is removed — the rest of the cache is kept, in order,
and the new pair inserted — and the removed entry's `blob:` object URL is
the one revoked. -/
theorem c1_memory_cache_capacity :
    (∀ ps : List (String × String), (∀ p ∈ ps, p.1 ≠ "") →
      (runInserts [] ps).length ≤ MAX_MEMORY_CACHE) ∧
    (∀ (fk fb : String) (t : MemCache) (url blobUrl : String),
      fk ≠ "" → MAX_MEMORY_CACHE ≤ ((fk, fb) :: t).length →
      (addToMemoryCache ((fk, fb) :: t) url blobUrl).1 = mapSet t url blobUrl ∧
      (addToMemoryCache ((fk, fb) :: t) url blobUrl).2 =
        (if fb ≠ "" ∧ strStartsWith fb "blob:" then [fb] else [])) := by
  constructor
  · intro ps hps
    exact (runInserts_good ps [] (by simp) (by simp [MAX_MEMORY_CACHE]) hps).2
  · intro fk fb t url blobUrl hfk hcap
    have ht : mapDelete ((fk, fb) :: t) fk = t := by
      unfold mapDelete
      exact List.eraseP_cons_of_pos (by simp)
    unfold addToMemoryCache
    rw [if_pos hcap]
    simp only [List.head?_cons]
    rw [if_neg hfk, ht]
    exact ⟨rfl, rfl⟩

/-- A concrete 99-entry tail used to exercise the at-capacity branch. -/
def c1wTail : MemCache := (List.range 99).map (fun i => (String.mk [Char.ofNat (65 + i)], "b"))

theorem c1_memory_cache_capacity_witness :
    (runInserts [] [("a", "b")]).length ≤ MAX_MEMORY_CACHE ∧
    ((addToMemoryCache (("k", "blob:x") :: c1wTail) "u" "v").1 = mapSet c1wTail "u" "v" ∧
     (addToMemoryCache (("k", "blob:x") :: c1wTail) "u" "v").2 =
       (if ("blob:x" : String) ≠ "" ∧ strStartsWith "blob:x" "blob:"
        then ["blob:x"] else [])) :=
  ⟨c1_memory_cache_capacity.1 [("a", "b")] (by decide),
   c1_memory_cache_capacity.2 "k" "blob:x" c1wTail "u" "v" (by decide) (by decide)⟩

/-! ### Layer 2: the IndexedDB cache (src/lib/supabase.ts)

The Dexie table `images: '++id, url, timestamp'` is modelled as a list of
records in primary-key (insertion) order.  `where('url').equals(url).first()`
is `find?`; `where(...).delete()` removes all matching rows and returns the
count; `put` of a record without an `id` always inserts a new row.  Note the
stored record holds the object-URL *string* (`blobUrl`), not the fetched
binary blob. -/

structure CachedImage where
  url : String
  blobUrl : String
  timestamp : Int
  size : Nat
  blurhash : Option String
deriving DecidableEq, Repr

def MAX_CACHE_AGE : Int := 7 * 24 * 60 * 60 * 1000

/-- `getFromIndexedDB`: the hit (if fresh), together with the table after the
call (an expired matching row is cleaned up). -/
def getFromIndexedDB (dbi : List CachedImage) (now : Int) (url : String) :
    Option CachedImage × List CachedImage :=
  match dbi.find? (fun c => c.url == url) with
  | some cached =>
    if now - cached.timestamp < MAX_CACHE_AGE then (some cached, dbi)
    else (none, dbi.filter (fun c => !(c.url == url)))
  | none => (none, dbi)

/-- `saveToIndexedDB`: `db.images.put({url, blobUrl, timestamp: Date.now(), size, blurhash})`. -/
def saveToIndexedDB (dbi : List CachedImage) (url blobUrl : String) (size : Nat)
    (blurhash : Option String) (now : Int) : List CachedImage :=
  dbi ++ [⟨url, blobUrl, now, size, blurhash⟩]

/-- `cleanupExpiredCache`: deletes every row with `timestamp` below the 7-day
cutoff and returns the number deleted, paired with the remaining table. -/
def cleanupExpiredCache (dbi : List CachedImage) (now : Int) : Nat × List CachedImage :=
  let cutoff := now - MAX_CACHE_AGE
  ((dbi.filter (fun c => c.timestamp < cutoff)).length,
   dbi.filter (fun c => !(c.timestamp < cutoff)))

theorem getFromIndexedDB_expired_eq {dbi : List CachedImage} {now : Int} {url : String}
    {c : CachedImage} (hfind : dbi.find? (fun x => x.url == url) = some c)
    (hold : ¬ (now - c.timestamp < MAX_CACHE_AGE)) :
    getFromIndexedDB dbi now url = (none, dbi.filter (fun x => !(x.url == url))) := by
  unfold getFromIndexedDB
  rw [hfind]
  exact if_neg hold

/-- Claim C2: `getFromIndexedDB` answers only entries strictly younger than
7 days; a found-but-expired entry is removed from the table and `none` is
answered; `cleanupExpiredCache` keeps exactly the rows at or above the cutoff
and reports the number of rows below it. -/
theorem c2_indexeddb_ttl (dbi : List CachedImage) (now : Int) (url : String) :
    (∀ c : CachedImage, (getFromIndexedDB dbi now url).1 = some c →
      c.url = url ∧ now - c.timestamp < MAX_CACHE_AGE) ∧
    (∀ c : CachedImage, dbi.find? (fun x => x.url == url) = some c →
      ¬ (now - c.timestamp < MAX_CACHE_AGE) →
      (getFromIndexedDB dbi now url).1 = none ∧
      ∀ c' ∈ (getFromIndexedDB dbi now url).2, c'.url ≠ url) ∧
    (∀ c : CachedImage,
      c ∈ (cleanupExpiredCache dbi now).2 ↔
        (c ∈ dbi ∧ ¬ (c.timestamp < now - MAX_CACHE_AGE))) ∧
    (cleanupExpiredCache dbi now).1 =
      dbi.countP (fun c => c.timestamp < now - MAX_CACHE_AGE) := by
  refine ⟨?_, ?_, ?_, ?_⟩
  · intro c hc
    unfold getFromIndexedDB at hc
    cases hfind : dbi.find? (fun x => x.url == url) with
    | none => rw [hfind] at hc; simp at hc
    | some d =>
      rw [hfind] at hc
      have hc2 : (if now - d.timestamp < MAX_CACHE_AGE then (some d, dbi)
          else ((none : Option CachedImage), dbi.filter (fun x => !(x.url == url)))).1
            = some c := hc
      split at hc2
      next hfresh =>
        have hdc : d = c := by simpa using hc2
        subst hdc
        refine ⟨?_, hfresh⟩
        have := List.find?_some hfind
        simpa using this
      next => simp at hc2
  · intro c hfind hold
    rw [getFromIndexedDB_expired_eq hfind hold]
    refine ⟨rfl, ?_⟩
    intro c' hc'
    have := (List.mem_filter.mp hc').2
    simpa using this
  · intro c
    unfold cleanupExpiredCache
    simp [List.mem_filter]
  · unfold cleanupExpiredCache
    simp [List.countP_eq_length_filter]

theorem c2_indexeddb_ttl_witness :
    ((getFromIndexedDB [⟨"u", "b", 0, 1, none⟩] MAX_CACHE_AGE "u").1 = none ∧
     ∀ c' ∈ (getFromIndexedDB [⟨"u", "b", 0, 1, none⟩] MAX_CACHE_AGE "u").2, c'.url ≠ "u") :=
  (c2_indexeddb_ttl [⟨"u", "b", 0, 1, none⟩] MAX_CACHE_AGE "u").2.1
    ⟨"u", "b", 0, 1, none⟩ (by decide) (by decide)

/-- Claim C6 is false of the code: the row persisted for a cached URL holds
the object-URL string produced by `URL.createObjectURL` and its byte size,
not the fetched binary object; an object URL does not survive a page reload,
so the persisted layer cannot serve the media without re-downloading. -/
theorem c6_indexeddb_stores_object_url_string :
    saveToIndexedDB [] "https://example.com/img.png" "blob:site/abc" 12345 none 0 =
      [{ url := "https://example.com/img.png", blobUrl := "blob:site/abc",
         timestamp := 0, size := 12345, blurhash := none }] := rfl

/-! ### The multi-layer fetch `getCachedImageUrl` (src/lib/supabase.ts)

The network is an oracle: `URL.createObjectURL(blob)` and `blob.size` are the
data of a successful fetch; a non-ok response or a thrown fetch is `err`
(caught by the surrounding `try`, which falls back to the original URL). -/

inductive FetchResult where
  | ok (blobUrl : String) (size : Nat)
  | err
deriving DecidableEq, Repr

structure CacheState where
  mem : MemCache
  idb : List CachedImage
deriving DecidableEq, Repr

structure CallResult where
  result : String
  state : CacheState
  fetched : Bool
deriving DecidableEq, Repr

/-- `getCachedImageUrl`: layer 1 memory, layer 2 IndexedDB with promotion,
layer 3 network with save to both layers, original URL on failure. -/
def getCachedImageUrl (st : CacheState) (now : Int) (url : String)
    (fetch : FetchResult) : CallResult :=
  if strStartsWith url "data:" then ⟨url, st, false⟩
  else
    match getFromMemoryCache st.mem url with
    | some b => ⟨b, st, false⟩
    | none =>
      match getFromIndexedDB st.idb now url with
      | (some c, idb2) =>
        ⟨c.blobUrl, ⟨(addToMemoryCache st.mem url c.blobUrl).1, idb2⟩, false⟩
      | (none, idb2) =>
        match fetch with
        | .ok blobUrl size =>
          ⟨blobUrl, ⟨(addToMemoryCache st.mem url blobUrl).1,
                     saveToIndexedDB idb2 url blobUrl size none now⟩, true⟩
        | .err => ⟨url, ⟨st.mem, idb2⟩, true⟩

structure Step where
  url : String
  now : Int
  fetch : FetchResult

/-- Thread a sequence of `getCachedImageUrl` calls through the cache state. -/
def runSteps (st : CacheState) (steps : List Step) : CacheState :=
  steps.foldl (fun s stp => (getCachedImageUrl s stp.now stp.url stp.fetch).state) st

/-- When layer 2 misses, the table left behind holds no row for the URL
(a found-but-expired row was just removed, and a clean miss means none
matched). -/
theorem getFromIndexedDB_none_no_row {dbi : List CachedImage} {now : Int} {url : String}
    (h : (getFromIndexedDB dbi now url).1 = none) :
    ∀ c ∈ (getFromIndexedDB dbi now url).2, c.url ≠ url := by
  intro c hc
  unfold getFromIndexedDB at h hc
  cases hfind : dbi.find? (fun x => x.url == url) with
  | none =>
    rw [hfind] at hc
    have := List.find?_eq_none.mp hfind c hc
    simpa using this
  | some d =>
    rw [hfind] at h hc
    have h2 : (if now - d.timestamp < MAX_CACHE_AGE then (some d, dbi)
        else ((none : Option CachedImage), dbi.filter (fun x => !(x.url == url)))).1 = none := h
    have hc2 : c ∈ (if now - d.timestamp < MAX_CACHE_AGE then (some d, dbi)
        else ((none : Option CachedImage), dbi.filter (fun x => !(x.url == url)))).2 := hc
    by_cases hfresh : now - d.timestamp < MAX_CACHE_AGE
    · rw [if_pos hfresh] at h2
      simp at h2
    · rw [if_neg hfresh] at hc2
      have := (List.mem_filter.mp hc2).2
      simpa using this

/-- Claim C5: a `data:` URL is returned unchanged with no cache interaction;
a URL that misses both layers and whose fetch fails is returned unchanged,
the memory layer is untouched, and no row for the URL remains in the
IndexedDB layer. -/
theorem c5_fallback (st : CacheState) (now : Int) (url : String) (f : FetchResult) :
    (strStartsWith url "data:" = true → getCachedImageUrl st now url f = ⟨url, st, false⟩) ∧
    (strStartsWith url "data:" = false →
      getFromMemoryCache st.mem url = none →
      (getFromIndexedDB st.idb now url).1 = none →
      f = .err →
      (getCachedImageUrl st now url f).result = url ∧
      (getCachedImageUrl st now url f).state.mem = st.mem ∧
      ∀ c ∈ (getCachedImageUrl st now url f).state.idb, c.url ≠ url) := by
  constructor
  · intro hdata
    unfold getCachedImageUrl
    rw [if_pos hdata]
  · intro hdata hmem hidb hf
    subst hf
    have hpair : getFromIndexedDB st.idb now url = (none, (getFromIndexedDB st.idb now url).2) := by
      rw [← hidb]
    unfold getCachedImageUrl
    rw [if_neg (by simp [hdata]), hmem, hpair]
    exact ⟨rfl, rfl, getFromIndexedDB_none_no_row hidb⟩

theorem c5_fallback_witness :
    (getCachedImageUrl ⟨[], []⟩ 0 "data:image/png;base64,xyz" .err =
      ⟨"data:image/png;base64,xyz", ⟨[], []⟩, false⟩) ∧
    ((getCachedImageUrl ⟨[], []⟩ 0 "https://e.com/a.png" .err).result = "https://e.com/a.png" ∧
     (getCachedImageUrl ⟨[], []⟩ 0 "https://e.com/a.png" .err).state.mem = [] ∧
     ∀ c ∈ (getCachedImageUrl ⟨[], []⟩ 0 "https://e.com/a.png" .err).state.idb,
       c.url ≠ "https://e.com/a.png") :=
  ⟨(c5_fallback ⟨[], []⟩ 0 "data:image/png;base64,xyz" .err).1 (by decide),
   (c5_fallback ⟨[], []⟩ 0 "https://e.com/a.png" .err).2 (by decide) rfl rfl rfl⟩

theorem find?_map_overwrite (m : MemCache) (k v : String) :
    List.find? (fun p => p.1 == k) (m.map fun p => if p.1 == k then (k, v) else p) =
      (if m.any (fun p => p.1 == k) then some (k, v) else none) := by
  induction m with
  | nil => simp
  | cons q t ih =>
    by_cases hq : q.1 = k
    · simp only [List.map_cons, if_pos (show (q.1 == k) = true by simpa using hq)]
      rw [List.find?_cons_of_pos _ (by simp)]
      simp [List.any_cons, hq]
    · simp only [List.map_cons, if_neg (show ¬ (q.1 == k) = true by simpa using hq)]
      rw [List.find?_cons_of_neg _ (by simpa using hq), ih]
      have hqf : (q.1 == k) = false := by simpa using hq
      rw [List.any_cons, hqf, Bool.false_or]

theorem memLookup_mapSet_self (m : MemCache) (k v : String) :
    memLookup (mapSet m k v) k = some v := by
  unfold mapSet memLookup
  by_cases hany : m.any (fun p => p.1 == k) = true
  · rw [if_pos hany, find?_map_overwrite, if_pos hany]
    rfl
  · rw [if_neg hany, List.find?_append]
    have hnone : List.find? (fun p => p.1 == k) m = none := by
      rw [List.find?_eq_none]
      intro x hx
      exact (List.any_eq_false.mp (Bool.eq_false_iff.mpr hany)) x hx
    rw [hnone]
    simp

theorem getFromMemoryCache_addTo_self {m : MemCache} {u v : String} (hv : v ≠ "") :
    getFromMemoryCache (addToMemoryCache m u v).1 u = some v := by
  obtain ⟨m', _, heq⟩ := addToMemoryCache_shape m u v
  rw [heq]
  unfold getFromMemoryCache
  rw [memLookup_mapSet_self]
  simp [hv]

/-- Claim C4 fails as stated for an IndexedDB row whose stored `blobUrl` is
the empty string: `getCachedImageUrl` returns `""` and promotes it, but
`getFromMemoryCache` coerces the empty string to `null`. -/
theorem c4_counterexample :
    ¬ (getFromMemoryCache
        (getCachedImageUrl ⟨[], [⟨"u", "", 0, 1, none⟩]⟩ 0 "u" .err).state.mem "u"
       = some (getCachedImageUrl ⟨[], [⟨"u", "", 0, 1, none⟩]⟩ 0 "u" .err).result) := by
  decide

/-- Claim C4 (amended): when the memory layer misses, the IndexedDB layer
hits a fresh entry, and that entry's stored blobUrl is nonempty, the call
returns the stored blobUrl and promotes it into the memory layer, where
`getFromMemoryCache` then finds exactly the returned value. -/
theorem c4_promotion (st : CacheState) (now : Int) (url : String) (f : FetchResult)
    (c : CachedImage) (idb2 : List CachedImage)
    (hdata : strStartsWith url "data:" = false)
    (hmem : getFromMemoryCache st.mem url = none)
    (hidb : getFromIndexedDB st.idb now url = (some c, idb2))
    (hne : c.blobUrl ≠ "") :
    (getCachedImageUrl st now url f).result = c.blobUrl ∧
    getFromMemoryCache (getCachedImageUrl st now url f).state.mem url = some c.blobUrl := by
  unfold getCachedImageUrl
  rw [if_neg (by simp [hdata]), hmem, hidb]
  exact ⟨rfl, getFromMemoryCache_addTo_self hne⟩

theorem c4_promotion_witness :
    (getCachedImageUrl ⟨[], [⟨"u", "b", 0, 1, none⟩]⟩ 0 "u" .err).result = "b" ∧
    getFromMemoryCache
      (getCachedImageUrl ⟨[], [⟨"u", "b", 0, 1, none⟩]⟩ 0 "u" .err).state.mem "u" = some "b" :=
  c4_promotion ⟨[], [⟨"u", "b", 0, 1, none⟩]⟩ 0 "u" .err ⟨"u", "b", 0, 1, none⟩
    [⟨"u", "b", 0, 1, none⟩] (by decide) rfl (by decide) (by decide)

/-! ### Claim C3: stability of a cached URL across subsequent calls -/

theorem find?_filter_stable {α : Type} {p q : α → Bool} {l : List α}
    (h : ∀ x, p x = true → q x = true) : (l.filter q).find? p = l.find? p := by
  induction l with
  | nil => simp
  | cons a t ih =>
    cases hq : q a with
    | true =>
      rw [List.filter_cons_of_pos hq]
      cases hp : p a with
      | true => rw [List.find?_cons_of_pos _ hp, List.find?_cons_of_pos _ hp]
      | false =>
        rw [List.find?_cons_of_neg _ (by simp [hp]), List.find?_cons_of_neg _ (by simp [hp])]
        exact ih
    | false =>
      rw [List.filter_cons_of_neg (by simp [hq])]
      have hp : p a = false := by
        cases hpa : p a with
        | true => exact absurd (h a hpa) (by simp [hq])
        | false => rfl
      rw [List.find?_cons_of_neg _ (by simp [hp])]
      exact ih

/-- A `getFromIndexedDB` call for a different URL never disturbs the first
matching row of this URL. -/
theorem getFromIndexedDB_other_find {dbi : List CachedImage} {now : Int} {u url : String}
    (hne : u ≠ url) :
    ((getFromIndexedDB dbi now u).2).find? (fun x => x.url == url) =
      dbi.find? (fun x => x.url == url) := by
  unfold getFromIndexedDB
  cases hfind : dbi.find? (fun x => x.url == u) with
  | none => rfl
  | some d =>
    show List.find? (fun x => x.url == url)
        (if now - d.timestamp < MAX_CACHE_AGE then (some d, dbi)
         else ((none : Option CachedImage), dbi.filter (fun c => !(c.url == u)))).2 =
      List.find? (fun x => x.url == url) dbi
    by_cases hfresh : now - d.timestamp < MAX_CACHE_AGE
    · rw [if_pos hfresh]
    · rw [if_neg hfresh]
      apply find?_filter_stable
      intro x hx
      have hxu : x.url = url := by simpa using hx
      simp [hxu, hne.symm]

/-- The invariant behind claim C3: after a URL has been cached at time `t`
with object URL `b`, the IndexedDB layer's first row for the URL carries
`(b, t)`, and every memory entry under the URL carries `b`. -/
def cachedInv (st : CacheState) (url b : String) (t : Int) : Prop :=
  (∃ c : CachedImage, st.idb.find? (fun x => x.url == url) = some c ∧
      c.blobUrl = b ∧ c.timestamp = t) ∧
  (∀ p ∈ st.mem, p.1 = url → p.2 = b)

theorem addTo_memPart_self {m : MemCache} {u v : String} :
    ∀ p ∈ (addToMemoryCache m u v).1, p.1 = u → p.2 = v := by
  intro p hp hk
  obtain ⟨m', _, heq⟩ := addToMemoryCache_shape m u v
  rw [heq] at hp
  exact mem_mapSet_eq hp hk

theorem addTo_memPart_other {m : MemCache} {u v url b : String} (hne : u ≠ url)
    (hmem : ∀ p ∈ m, p.1 = url → p.2 = b) :
    ∀ p ∈ (addToMemoryCache m u v).1, p.1 = url → p.2 = b := by
  intro p hp hk
  obtain ⟨m', hm', heq⟩ := addToMemoryCache_shape m u v
  rw [heq] at hp
  have hpne : p.1 ≠ u := by rw [hk]; exact fun h => hne h.symm
  exact hmem p (hm' p (mem_mapSet_ne hp hpne)) hk

theorem getFromMemoryCache_some_val {m : MemCache} {url x b : String}
    (h : getFromMemoryCache m url = some x)
    (hmem : ∀ p ∈ m, p.1 = url → p.2 = b) : x = b := by
  unfold getFromMemoryCache at h
  cases hl : memLookup m url with
  | none => rw [hl] at h; simp at h
  | some y =>
    rw [hl] at h
    have h2 : (if y = "" then (none : Option String) else some y) = some x := h
    by_cases hy : y = ""
    · rw [if_pos hy] at h2; simp at h2
    · rw [if_neg hy] at h2
      have hxy : y = x := by simpa using h2
      unfold memLookup at hl
      cases hfind : m.find? (fun p => p.1 == url) with
      | none => rw [hfind] at hl; simp at hl
      | some p =>
        rw [hfind] at hl
        have hpy : p.2 = y := by simpa using hl
        have hpurl : p.1 = url := by simpa using List.find?_some hfind
        have := hmem p (List.mem_of_find?_eq_some hfind) hpurl
        rw [← hxy, ← hpy]
        exact this

/-- A first successful (fetching) call on a URL establishes the invariant. -/
theorem cachedInv_establish {st : CacheState} {url : String} {t : Int} {b : String} {sz : Nat}
    (hdata : strStartsWith url "data:" = false)
    (hmem : getFromMemoryCache st.mem url = none)
    (hidb : (getFromIndexedDB st.idb t url).1 = none) :
    (getCachedImageUrl st t url (.ok b sz)).result = b ∧
    (getCachedImageUrl st t url (.ok b sz)).fetched = true ∧
    cachedInv (getCachedImageUrl st t url (.ok b sz)).state url b t := by
  have hpair : getFromIndexedDB st.idb t url =
      (none, (getFromIndexedDB st.idb t url).2) := by rw [← hidb]
  unfold getCachedImageUrl
  rw [if_neg (by simp [hdata]), hmem, hpair]
  refine ⟨rfl, rfl, ⟨⟨url, b, t, sz, none⟩, ?_, rfl, rfl⟩, ?_⟩
  · unfold saveToIndexedDB
    rw [List.find?_append]
    have h1 : (getFromIndexedDB st.idb t url).2.find? (fun x => x.url == url) = none := by
      rw [List.find?_eq_none]
      intro x hx
      simpa using getFromIndexedDB_none_no_row hidb x hx
    rw [h1]
    rw [List.find?_cons_of_pos _ (by simp)]
    rfl
  · exact addTo_memPart_self

/-- A call on the cached URL within the 7-day window answers the cached
object URL without fetching and preserves the invariant. -/
theorem cachedInv_hit {st : CacheState} {url b : String} {t now : Int} {f : FetchResult}
    (hinv : cachedInv st url b t)
    (hdata : strStartsWith url "data:" = false)
    (hnow : now - t < MAX_CACHE_AGE) :
    (getCachedImageUrl st now url f).result = b ∧
    (getCachedImageUrl st now url f).fetched = false ∧
    cachedInv (getCachedImageUrl st now url f).state url b t := by
  obtain ⟨⟨c, hfind, hcb, hct⟩, hmem⟩ := hinv
  unfold getCachedImageUrl
  rw [if_neg (by simp [hdata])]
  cases hm : getFromMemoryCache st.mem url with
  | some x =>
    have hx : x = b := getFromMemoryCache_some_val hm hmem
    exact ⟨hx, rfl, ⟨⟨c, hfind, hcb, hct⟩, hmem⟩⟩
  | none =>
    have hfresh : now - c.timestamp < MAX_CACHE_AGE := by rw [hct]; exact hnow
    have hidb : getFromIndexedDB st.idb now url = (some c, st.idb) := by
      unfold getFromIndexedDB
      rw [hfind]
      exact if_pos hfresh
    rw [hidb]
    refine ⟨hcb, rfl, ⟨⟨c, hfind, hcb, hct⟩, ?_⟩⟩
    intro p hp hk
    rw [addTo_memPart_self p hp hk]
    exact hcb

/-- A call on any other URL preserves the invariant. -/
theorem cachedInv_other {st : CacheState} {url b : String} {t : Int} {u : String}
    {now : Int} {f : FetchResult} (hinv : cachedInv st url b t) (hne : u ≠ url) :
    cachedInv (getCachedImageUrl st now u f).state url b t := by
  obtain ⟨⟨c, hfind, hcb, hct⟩, hmem⟩ := hinv
  have hsnd : ((getFromIndexedDB st.idb now u).2).find? (fun x => x.url == url) = some c :=
    (getFromIndexedDB_other_find hne).trans hfind
  unfold getCachedImageUrl
  by_cases hdata : strStartsWith u "data:" = true
  · rw [if_pos hdata]
    exact ⟨⟨c, hfind, hcb, hct⟩, hmem⟩
  · rw [if_neg hdata]
    cases hm : getFromMemoryCache st.mem u with
    | some x =>
      exact ⟨⟨c, hfind, hcb, hct⟩, hmem⟩
    | none =>
      cases hidb : getFromIndexedDB st.idb now u with
      | mk r idb2 =>
        have hsnd2 : idb2.find? (fun x => x.url == url) = some c := by
          rw [hidb] at hsnd
          exact hsnd
        cases r with
        | some d =>
          exact ⟨⟨c, hsnd2, hcb, hct⟩, addTo_memPart_other hne hmem⟩
        | none =>
          cases f with
          | ok blobUrl size =>
            refine ⟨⟨c, ?_, hcb, hct⟩, addTo_memPart_other hne hmem⟩
            unfold saveToIndexedDB
            rw [List.find?_append, hsnd2]
            rfl
          | err =>
            exact ⟨⟨c, hsnd2, hcb, hct⟩, hmem⟩

/-- The invariant survives any sequence of calls whose same-URL calls stay
within the 7-day window. -/
theorem cachedInv_runSteps {url b : String} {t : Int}
    (steps : List Step) :
    ∀ st : CacheState, cachedInv st url b t →
      strStartsWith url "data:" = false →
      (∀ s ∈ steps, s.url = url → s.now - t < MAX_CACHE_AGE) →
      cachedInv (runSteps st steps) url b t := by
  induction steps with
  | nil => intro st hinv _ _; exact hinv
  | cons s ss ih =>
    intro st hinv hdata hsteps
    have hstep : cachedInv (getCachedImageUrl st s.now s.url s.fetch).state url b t := by
      by_cases hu : s.url = url
      · subst hu
        exact (cachedInv_hit hinv hdata (hsteps s (List.mem_cons_self _ _) rfl)).2.2
      · exact cachedInv_other hinv hu
    have := ih ((getCachedImageUrl st s.now s.url s.fetch).state) hstep hdata
      (fun x hx => hsteps x (List.mem_cons_of_mem _ hx))
    simpa [runSteps] using this

/-- 100 intervening calls on distinct other URLs (each fetched fresh); the
character codes 200..299 avoid the letter of the cached URL "u". -/
def c3cexSteps : List Step :=
  (List.range 100).map (fun i => ⟨String.mk [Char.ofNat (200 + i)], 0, .ok "x" 1⟩)

set_option maxRecDepth 40000 in
/-- Claim C3 fails as stated: after a first successful fetch of "u", one
hundred calls on other URLs evict "u" from the memory layer, and a call on
"u" 7 days later finds the IndexedDB row expired, so it fetches again and
returns a different blob URL. -/
theorem c3_counterexample :
    (getCachedImageUrl
      (runSteps (getCachedImageUrl ⟨[], []⟩ 0 "u" (.ok "b" 1)).state c3cexSteps)
      MAX_CACHE_AGE "u" (.ok "c" 1)).fetched = true ∧
    (getCachedImageUrl
      (runSteps (getCachedImageUrl ⟨[], []⟩ 0 "u" (.ok "b" 1)).state c3cexSteps)
      MAX_CACHE_AGE "u" (.ok "c" 1)).result = "c" := by
  constructor
  · decide
  · decide

/-- Claim C3 (amended): after a first successful fetching call on a non-data:
URL at time `t`, any sequence of further calls — arbitrary on other URLs,
and within 7 days of `t` on this URL — leaves every subsequent call on this
URL within 7 days of `t` returning the identical blob URL of the first call,
with no further network fetch. -/
theorem c3_cached_url_stable (st0 : CacheState) (url : String) (t : Int) (b : String)
    (sz : Nat) (steps : List Step) (now2 : Int) (f2 : FetchResult)
    (hdata : strStartsWith url "data:" = false)
    (hmem : getFromMemoryCache st0.mem url = none)
    (hidb : (getFromIndexedDB st0.idb t url).1 = none)
    (hsteps : ∀ s ∈ steps, s.url = url → s.now - t < MAX_CACHE_AGE)
    (hnow2 : now2 - t < MAX_CACHE_AGE) :
    (getCachedImageUrl st0 t url (.ok b sz)).result = b ∧
    (getCachedImageUrl
        (runSteps (getCachedImageUrl st0 t url (.ok b sz)).state steps)
        now2 url f2).result = b ∧
    (getCachedImageUrl
        (runSteps (getCachedImageUrl st0 t url (.ok b sz)).state steps)
        now2 url f2).fetched = false := by
  obtain ⟨hres, _, hinv1⟩ := @cachedInv_establish st0 url t b sz hdata hmem hidb
  have hinvN := cachedInv_runSteps steps _ hinv1 hdata hsteps
  obtain ⟨hr, hf, _⟩ := @cachedInv_hit _ url b t now2 f2 hinvN hdata hnow2
  exact ⟨hres, hr, hf⟩

theorem c3_cached_url_stable_witness :
    (getCachedImageUrl ⟨[], []⟩ 0 "u" (.ok "b" 1)).result = "b" ∧
    (getCachedImageUrl (runSteps (getCachedImageUrl ⟨[], []⟩ 0 "u" (.ok "b" 1)).state
        [⟨"v", 5, .err⟩]) 10 "u" .err).result = "b" ∧
    (getCachedImageUrl (runSteps (getCachedImageUrl ⟨[], []⟩ 0 "u" (.ok "b" 1)).state
        [⟨"v", 5, .err⟩]) 10 "u" .err).fetched = false :=
  c3_cached_url_stable ⟨[], []⟩ "u" 0 "b" 1 [⟨"v", 5, .err⟩] 10 .err
    (by decide) rfl rfl
    (by intro s hs hu
        simp only [List.mem_singleton] at hs
        subst hs
        simp at hu)
    (by decide)

/-! ### Image-generation route handlers

Three handlers share their request shape: the JSON route
`src/app/api/generate/route.ts`, the optimized JSON route (WebP upload), and
the streaming NDJSON route.  External calls (database, generation API,
storage) are oracle fields of type `Except String _`; a `.error` models a
thrown/rejected `await`, caught by the surrounding `try`.  Completed
persistent mutations are recorded as effects in order. -/

/-- JS truthiness of an optional string field (`undefined` and `""` falsy). -/
def jsFalsy : Option String → Bool
  | none => true
  | some s => s = ""

structure GenBody where
  prompt : Option String
  conversationId : Option String
  referenceImageId : Option String
  uploadedImage : Option String
  styleReference : Option String

structure PrevImage where
  id : String
  image_url : String

structure GenApiResult where
  url : String
  revisedPrompt : Option String

inductive Effect where
  | createConversation (title : String)
  | addMessage (conv role content : String)
  | generateImage (prompt : String)
  | uploadImageToStorage
  | saveGeneratedImage (conv url prompt : String)
  | updateConversationTitle (conv : String)
deriving DecidableEq, Repr

structure RouteOracle where
  parseBody : Except String GenBody
  apiKey : Option String
  createConversation : Except String String
  getConversationImages : Except String (List PrevImage)
  addMessageUser : Except String String
  generateImage : Except String GenApiResult
  addMessageAssistant : Except String String
  optimizeWebP : Except String (String × String)
  uploadImageToStorage : Except String String
  generateBlurhash : Except String String
  saveGeneratedImage : Except String String
  updateTitle : Except String Unit

/-- JS `String.prototype.includes` on the character list. -/
def strIncludes (s sub : String) : Bool :=
  (List.range (s.data.length + 1)).any (fun i => sub.data.isPrefixOf (s.data.drop i))

def editKeywords : List String :=
  ["edit", "modify", "change", "update", "make it", "add", "remove", "adjust",
   "keep", "same", "but"]

def isEditRequest (prompt : String) : Bool :=
  editKeywords.any (fun k => strIncludes prompt.toLower k)

/-- Reference-image selection shared by all three handlers: an uploaded image
wins, then an explicitly selected history image, then the most recent history
image for edit-like prompts. -/
def selectReference (prompt : String) (body : GenBody) (previousImages : List PrevImage) :
    Option String :=
  if jsFalsy body.uploadedImage = false then body.uploadedImage
  else if previousImages.length > 0 then
    if jsFalsy body.referenceImageId = false then
      (previousImages.find? (fun img => img.id == body.referenceImageId.getD "")).map
        (fun i => i.image_url)
    else if isEditRequest prompt then (previousImages.head?).map (fun i => i.image_url)
    else none
  else none

inductive ApiResponse where
  | jsonError (error : String) (status : Nat)
  | jsonSuccess (conversationId : String)
deriving DecidableEq, Repr

/-- `error.message || 'Failed to generate image'` in the catch-all. -/
def errMsg (e : String) : String := if e = "" then "Failed to generate image" else e

/-- Sequence an awaited call inside the JSON routes' outer `try`: a rejection
becomes the 500 JSON error, with the effects performed so far. -/
def andThen {α : Type} (acc : List Effect) (x : Except String α)
    (k : α → ApiResponse × List Effect) : ApiResponse × List Effect :=
  match x with
  | .error e => (.jsonError (errMsg e) 500, acc)
  | .ok a => k a

/-- `result.revisedPrompt || 'Generated image for: ' + prompt`. -/
def assistantContent (result : GenApiResult) (prompt : String) : String :=
  match result.revisedPrompt with
  | some rp => if rp = "" then "Generated image for: " ++ prompt else rp
  | none => "Generated image for: " ++ prompt

/-- Common tail of the plain JSON route after the conversation id is known. -/
def POST_generate_rest (o : RouteOracle) (body : GenBody) (prompt convId : String)
    (acc : List Effect) : ApiResponse × List Effect :=
  andThen acc o.getConversationImages (fun previousImages =>
    let _ref := selectReference prompt body previousImages
    andThen acc o.addMessageUser (fun _userMessage =>
      let acc1 := acc ++ [Effect.addMessage convId "user" prompt]
      andThen acc1 o.generateImage (fun result =>
        let acc2 := acc1 ++ [Effect.generateImage prompt]
        andThen acc2 o.addMessageAssistant (fun _assistantMessage =>
          let acc3 := acc2 ++ [Effect.addMessage convId "assistant" (assistantContent result prompt)]
          andThen acc3 o.saveGeneratedImage (fun _saved =>
            (.jsonSuccess convId, acc3 ++ [Effect.saveGeneratedImage convId result.url prompt]))))))

def POST_generate_body (o : RouteOracle) (body : GenBody) : ApiResponse × List Effect :=
  if jsFalsy body.prompt then (.jsonError "Prompt is required" 400, [])
  else if o.apiKey.isNone then (.jsonError "API key not configured" 500, [])
  else
    let prompt := body.prompt.getD ""
    if jsFalsy body.conversationId then
      andThen [] o.createConversation (fun convId =>
        POST_generate_rest o body prompt convId
          [Effect.createConversation (prompt.take 50 ++ "...")])
    else
      POST_generate_rest o body prompt (body.conversationId.getD "") []

/-- The JSON route `src/app/api/generate/route.ts`. -/
def POST_generate (o : RouteOracle) : ApiResponse × List Effect :=
  match o.parseBody with
  | .error e => (.jsonError (errMsg e) 500, [])
  | .ok body => POST_generate_body o body

/-- Tail of the optimized JSON route after the assistant message: a base64
result is optimized to WebP and uploaded, with a blurhash-only fallback when
optimization or upload fails (the inner catch swallows the error). -/
def POST_generateOptimized_upload (o : RouteOracle) (result : GenApiResult)
    (prompt convId : String) (acc : List Effect) : ApiResponse × List Effect :=
  if strStartsWith result.url "data:image/" then
    match o.optimizeWebP with
    | .ok (_dataUrl, _blurhash) =>
      match o.uploadImageToStorage with
      | .ok imageUrl =>
        andThen (acc ++ [Effect.uploadImageToStorage]) o.saveGeneratedImage (fun _saved =>
          (.jsonSuccess convId,
           acc ++ [Effect.uploadImageToStorage,
                   Effect.saveGeneratedImage convId imageUrl prompt]))
      | .error _ =>
        let _blurhash := match o.generateBlurhash with | .ok bh => bh | .error _ => ""
        andThen acc o.saveGeneratedImage (fun _saved =>
          (.jsonSuccess convId, acc ++ [Effect.saveGeneratedImage convId result.url prompt]))
    | .error _ =>
      let _blurhash := match o.generateBlurhash with | .ok bh => bh | .error _ => ""
      andThen acc o.saveGeneratedImage (fun _saved =>
        (.jsonSuccess convId, acc ++ [Effect.saveGeneratedImage convId result.url prompt]))
  else
    andThen acc o.saveGeneratedImage (fun _saved =>
      (.jsonSuccess convId, acc ++ [Effect.saveGeneratedImage convId result.url prompt]))

def POST_generateOptimized_rest (o : RouteOracle) (body : GenBody) (prompt convId : String)
    (acc : List Effect) : ApiResponse × List Effect :=
  andThen acc o.getConversationImages (fun previousImages =>
    let _ref := selectReference prompt body previousImages
    andThen acc o.addMessageUser (fun _userMessage =>
      let acc1 := acc ++ [Effect.addMessage convId "user" prompt]
      andThen acc1 o.generateImage (fun result =>
        let acc2 := acc1 ++ [Effect.generateImage prompt]
        andThen acc2 o.addMessageAssistant (fun _assistantMessage =>
          let acc3 := acc2 ++ [Effect.addMessage convId "assistant" (assistantContent result prompt)]
          POST_generateOptimized_upload o result prompt convId acc3))))

def POST_generateOptimized_body (o : RouteOracle) (body : GenBody) :
    ApiResponse × List Effect :=
  if jsFalsy body.prompt then (.jsonError "Prompt is required" 400, [])
  else if o.apiKey.isNone then (.jsonError "API key not configured" 500, [])
  else
    let prompt := body.prompt.getD ""
    if jsFalsy body.conversationId then
      andThen [] o.createConversation (fun convId =>
        POST_generateOptimized_rest o body prompt convId
          [Effect.createConversation (prompt.take 50 ++ "...")])
    else
      POST_generateOptimized_rest o body prompt (body.conversationId.getD "") []

/-- The optimized JSON route (WebP optimization + storage upload). -/
def POST_generateOptimized (o : RouteOracle) : ApiResponse × List Effect :=
  match o.parseBody with
  | .error e => (.jsonError (errMsg e) 500, [])
  | .ok body => POST_generateOptimized_body o body

inductive StreamEvent where
  | errorEv (msg : String)
  | statusEv (status message : String)
  | successEv (conversationId : String)
deriving DecidableEq, Repr

/-- Tail of the streaming route after a successful upload decision: save the
image, emit the single success event, and (for new conversations) update the
title with errors swallowed. -/
def finishStream (o : RouteOracle) (convId : String) (isNewConversation : Bool)
    (prompt imageUrl : String) (acc : List Effect) (evs : List StreamEvent) :
    List StreamEvent × List Effect :=
  match o.saveGeneratedImage with
  | .error e => (evs ++ [.errorEv (errMsg e)], acc)
  | .ok _saved =>
    let acc2 := acc ++ [Effect.saveGeneratedImage convId imageUrl prompt]
    let evs2 := evs ++ [StreamEvent.successEv convId]
    if isNewConversation then
      match o.updateTitle with
      | .ok _ => (evs2, acc2 ++ [Effect.updateConversationTitle convId])
      | .error _ => (evs2, acc2)
    else (evs2, acc2)

/-- The streaming route's upload step: a base64 generation result is uploaded
to storage (an upload failure emits an error event and closes the stream); a
non-base64 result is saved as-is. -/
def streamUpload (o : RouteOracle) (result : GenApiResult) (prompt convId : String)
    (isNewConversation : Bool) (acc : List Effect) (evs : List StreamEvent) :
    List StreamEvent × List Effect :=
  if strStartsWith result.url "data:image/" then
    match o.uploadImageToStorage with
    | .error e => (evs ++ [.errorEv ("Upload failed: " ++ e)], acc)
    | .ok imageUrl =>
      let _blurhash := match o.generateBlurhash with | .ok bh => bh | .error _ => ""
      finishStream o convId isNewConversation prompt imageUrl
        (acc ++ [Effect.uploadImageToStorage]) evs
  else finishStream o convId isNewConversation prompt result.url acc evs

def POST_stream_rest (o : RouteOracle) (body : GenBody) (prompt convId : String)
    (isNewConversation : Bool) (acc : List Effect) (evs : List StreamEvent) :
    List StreamEvent × List Effect :=
  match o.getConversationImages with
  | .error e => (evs ++ [.errorEv (errMsg e)], acc)
  | .ok previousImages =>
    let _ref := selectReference prompt body previousImages
    match o.addMessageUser with
    | .error e => (evs ++ [.errorEv (errMsg e)], acc)
    | .ok _userMessage =>
      let acc1 := acc ++ [Effect.addMessage convId "user" prompt]
      let evs1 := evs ++ [StreamEvent.statusEv "generating" "Generating image..."]
      match o.generateImage with
      | .error e => (evs1 ++ [.errorEv (errMsg e)], acc1)
      | .ok result =>
        let acc2 := acc1 ++ [Effect.generateImage prompt]
        match o.addMessageAssistant with
        | .error e => (evs1 ++ [.errorEv (errMsg e)], acc2)
        | .ok _assistantMessage =>
          let acc3 := acc2 ++ [Effect.addMessage convId "assistant" (assistantContent result prompt)]
          let evs2 := evs1 ++ [StreamEvent.statusEv "uploading" "Uploading to storage..."]
          streamUpload o result prompt convId isNewConversation acc3 evs2

def POST_stream_body (o : RouteOracle) (body : GenBody) :
    List StreamEvent × List Effect :=
  if jsFalsy body.prompt then ([.errorEv "Prompt is required"], [])
  else if o.apiKey.isNone then ([.errorEv "API key not configured"], [])
  else
    let prompt := body.prompt.getD ""
    let evs0 := [StreamEvent.statusEv "starting" "Initializing..."]
    if jsFalsy body.conversationId then
      match o.createConversation with
      | .error e => (evs0 ++ [.errorEv (errMsg e)], [])
      | .ok convId =>
        POST_stream_rest o body prompt convId true
          [Effect.createConversation "New Project"] evs0
    else
      POST_stream_rest o body prompt (body.conversationId.getD "") false [] evs0

/-- The streaming NDJSON route: the events enqueued (in order) and the
persistent mutations performed. -/
def POST_stream (o : RouteOracle) : List StreamEvent × List Effect :=
  match o.parseBody with
  | .error e => ([.errorEv (errMsg e)], [])
  | .ok body => POST_stream_body o body

/-- The headers of the streaming response. -/
def streamHeaders : List (String × String) :=
  [("Content-Type", "application/x-ndjson"), ("Transfer-Encoding", "chunked"),
   ("Cache-Control", "no-cache"), ("Connection", "keep-alive")]

def jsonStr (s : String) : String := "\"" ++ s ++ "\""

/-- `JSON.stringify` of the event objects the route enqueues. -/
def encodeEvent : StreamEvent → String
  | .errorEv m => "\x7b\"error\":" ++ jsonStr m ++ "\x7d"
  | .statusEv st msg => "\x7b\"status\":" ++ jsonStr st ++ ",\"message\":" ++ jsonStr msg ++ "\x7d"
  | .successEv cid => "\x7b\"success\":true,\"conversationId\":" ++ jsonStr cid ++ "\x7d"

/-- What the route enqueues on the wire: one JSON object plus newline per event. -/
def streamChunks (o : RouteOracle) : List String :=
  (POST_stream o).1.map (fun e => encodeEvent e ++ "\n")

/-- Claim C7: when the parsed body has a falsy prompt, each of the three
generation handlers reports 'Prompt is required' (400 JSON on the JSON
routes, an error event on the streaming route) with no persistent effect. -/
theorem c7_prompt_required (o : RouteOracle) (body : GenBody)
    (hbody : o.parseBody = .ok body) (hprompt : jsFalsy body.prompt = true) :
    POST_generate o = (.jsonError "Prompt is required" 400, []) ∧
    POST_generateOptimized o = (.jsonError "Prompt is required" 400, []) ∧
    POST_stream o = ([.errorEv "Prompt is required"], []) := by
  refine ⟨?_, ?_, ?_⟩
  · unfold POST_generate
    rw [hbody]
    show POST_generate_body o body = _
    unfold POST_generate_body
    rw [if_pos hprompt]
  · unfold POST_generateOptimized
    rw [hbody]
    show POST_generateOptimized_body o body = _
    unfold POST_generateOptimized_body
    rw [if_pos hprompt]
  · unfold POST_stream
    rw [hbody]
    show POST_stream_body o body = _
    unfold POST_stream_body
    rw [if_pos hprompt]

def c7oracle : RouteOracle :=
  ⟨.ok ⟨none, some "c1", none, none, none⟩, some "k", .ok "c9", .ok [], .ok "m1",
   .ok ⟨"data:image/png;base64,x", none⟩, .ok "m2", .ok ("d", "h"), .ok "https://s",
   .ok "h", .ok "i1", .ok ()⟩

theorem c7_prompt_required_witness :
    POST_generate c7oracle = (.jsonError "Prompt is required" 400, []) ∧
    POST_generateOptimized c7oracle = (.jsonError "Prompt is required" 400, []) ∧
    POST_stream c7oracle = ([.errorEv "Prompt is required"], []) :=
  c7_prompt_required c7oracle ⟨none, some "c1", none, none, none⟩ rfl rfl

theorem finishStream_events (o : RouteOracle) (convId : String) (isNew : Bool)
    (prompt imageUrl : String) (acc : List Effect) (evs : List StreamEvent) :
    (∃ e, (finishStream o convId isNew prompt imageUrl acc evs).1 = evs ++ [.errorEv e]) ∨
    (finishStream o convId isNew prompt imageUrl acc evs).1 = evs ++ [.successEv convId] := by
  unfold finishStream
  cases o.saveGeneratedImage with
  | error e => exact Or.inl ⟨errMsg e, rfl⟩
  | ok v =>
    cases isNew with
    | false => exact Or.inr rfl
    | true =>
      cases o.updateTitle with
      | ok u => exact Or.inr rfl
      | error e => exact Or.inr rfl

theorem streamUpload_events (o : RouteOracle) (result : GenApiResult)
    (prompt convId : String) (isNew : Bool) (acc : List Effect) (evs : List StreamEvent) :
    (∃ e, (streamUpload o result prompt convId isNew acc evs).1 = evs ++ [.errorEv e]) ∨
    (streamUpload o result prompt convId isNew acc evs).1 = evs ++ [.successEv convId] := by
  unfold streamUpload
  by_cases hurl : strStartsWith result.url "data:image/" = true
  · rw [if_pos hurl]
    cases o.uploadImageToStorage with
    | error e => exact Or.inl ⟨"Upload failed: " ++ e, rfl⟩
    | ok imageUrl =>
      exact finishStream_events o convId isNew prompt imageUrl
        (acc ++ [Effect.uploadImageToStorage]) evs
  · rw [if_neg hurl]
    exact finishStream_events o convId isNew prompt result.url acc evs

theorem POST_stream_rest_events (o : RouteOracle) (body : GenBody)
    (prompt convId : String) (isNew : Bool) (acc : List Effect) (evs : List StreamEvent) :
    (∃ e, (POST_stream_rest o body prompt convId isNew acc evs).1 = evs ++ [.errorEv e]) ∨
    (∃ e, (POST_stream_rest o body prompt convId isNew acc evs).1 =
        evs ++ [.statusEv "generating" "Generating image...", .errorEv e]) ∨
    (∃ e, (POST_stream_rest o body prompt convId isNew acc evs).1 =
        evs ++ [.statusEv "generating" "Generating image...",
                .statusEv "uploading" "Uploading to storage...", .errorEv e]) ∨
    (POST_stream_rest o body prompt convId isNew acc evs).1 =
        evs ++ [.statusEv "generating" "Generating image...",
                .statusEv "uploading" "Uploading to storage...", .successEv convId] := by
  unfold POST_stream_rest
  cases o.getConversationImages with
  | error e => exact Or.inl ⟨errMsg e, rfl⟩
  | ok prev =>
    cases o.addMessageUser with
    | error e => exact Or.inl ⟨errMsg e, rfl⟩
    | ok u =>
      cases o.generateImage with
      | error e => exact Or.inr (Or.inl ⟨errMsg e, by simp⟩)
      | ok result =>
        cases o.addMessageAssistant with
        | error e => exact Or.inr (Or.inl ⟨errMsg e, by simp⟩)
        | ok a =>
          rcases streamUpload_events o result prompt convId isNew
              (acc ++ [Effect.addMessage convId "user" prompt] ++
                [Effect.generateImage prompt] ++
                [Effect.addMessage convId "assistant" (assistantContent result prompt)])
              (evs ++ [StreamEvent.statusEv "generating" "Generating image..."] ++
                [StreamEvent.statusEv "uploading" "Uploading to storage..."]) with
            ⟨e, he⟩ | he
          · exact Or.inr (Or.inr (Or.inl ⟨e, he.trans (by simp)⟩))
          · exact Or.inr (Or.inr (Or.inr (he.trans (by simp))))

theorem POST_stream_body_events (o : RouteOracle) (body : GenBody) :
    (∃ e, (POST_stream_body o body).1 = [.errorEv e]) ∨
    (∃ e, (POST_stream_body o body).1 = [.statusEv "starting" "Initializing...", .errorEv e]) ∨
    (∃ e, (POST_stream_body o body).1 = [.statusEv "starting" "Initializing...",
        .statusEv "generating" "Generating image...", .errorEv e]) ∨
    (∃ e, (POST_stream_body o body).1 = [.statusEv "starting" "Initializing...",
        .statusEv "generating" "Generating image...",
        .statusEv "uploading" "Uploading to storage...", .errorEv e]) ∨
    (∃ c, (POST_stream_body o body).1 = [.statusEv "starting" "Initializing...",
        .statusEv "generating" "Generating image...",
        .statusEv "uploading" "Uploading to storage...", .successEv c]) := by
  unfold POST_stream_body
  by_cases hp : jsFalsy body.prompt = true
  · rw [if_pos hp]
    exact Or.inl ⟨"Prompt is required", rfl⟩
  · rw [if_neg hp]
    by_cases hk : o.apiKey.isNone = true
    · rw [if_pos hk]
      exact Or.inl ⟨"API key not configured", rfl⟩
    · rw [if_neg hk]
      by_cases hc : jsFalsy body.conversationId = true
      · rw [if_pos hc]
        cases o.createConversation with
        | error e => exact Or.inr (Or.inl ⟨errMsg e, rfl⟩)
        | ok convId =>
          rcases POST_stream_rest_events o body (body.prompt.getD "") convId true
              [Effect.createConversation "New Project"]
              [StreamEvent.statusEv "starting" "Initializing..."] with
            ⟨e, he⟩ | ⟨e, he⟩ | ⟨e, he⟩ | he
          · exact Or.inr (Or.inl ⟨e, he⟩)
          · exact Or.inr (Or.inr (Or.inl ⟨e, he⟩))
          · exact Or.inr (Or.inr (Or.inr (Or.inl ⟨e, he⟩)))
          · exact Or.inr (Or.inr (Or.inr (Or.inr ⟨convId, he⟩)))
      · rw [if_neg hc]
        rcases POST_stream_rest_events o body (body.prompt.getD "")
            (body.conversationId.getD "") false []
            [StreamEvent.statusEv "starting" "Initializing..."] with
          ⟨e, he⟩ | ⟨e, he⟩ | ⟨e, he⟩ | he
        · exact Or.inr (Or.inl ⟨e, he⟩)
        · exact Or.inr (Or.inr (Or.inl ⟨e, he⟩))
        · exact Or.inr (Or.inr (Or.inr (Or.inl ⟨e, he⟩)))
        · exact Or.inr (Or.inr (Or.inr (Or.inr ⟨body.conversationId.getD "", he⟩)))

theorem POST_stream_events (o : RouteOracle) :
    (∃ e, (POST_stream o).1 = [.errorEv e]) ∨
    (∃ e, (POST_stream o).1 = [.statusEv "starting" "Initializing...", .errorEv e]) ∨
    (∃ e, (POST_stream o).1 = [.statusEv "starting" "Initializing...",
        .statusEv "generating" "Generating image...", .errorEv e]) ∨
    (∃ e, (POST_stream o).1 = [.statusEv "starting" "Initializing...",
        .statusEv "generating" "Generating image...",
        .statusEv "uploading" "Uploading to storage...", .errorEv e]) ∨
    (∃ c, (POST_stream o).1 = [.statusEv "starting" "Initializing...",
        .statusEv "generating" "Generating image...",
        .statusEv "uploading" "Uploading to storage...", .successEv c]) := by
  unfold POST_stream
  cases o.parseBody with
  | error e => exact Or.inl ⟨errMsg e, rfl⟩
  | ok body => exact POST_stream_body_events o body

/-- Claim C8: the streaming response carries Content-Type
application/x-ndjson; every chunk on the wire is one JSON-encoded event
followed by a newline; and whenever a success event is emitted, the event
sequence is exactly starting, generating, uploading, then the single final
success — in particular a success event never follows an error event. -/
theorem c8_stream_protocol (o : RouteOracle) :
    (("Content-Type", "application/x-ndjson") ∈ streamHeaders) ∧
    (∀ ch ∈ streamChunks o, ∃ ev ∈ (POST_stream o).1, ch = encodeEvent ev ++ "\n") ∧
    (∀ cid, StreamEvent.successEv cid ∈ (POST_stream o).1 →
      (POST_stream o).1 = [.statusEv "starting" "Initializing...",
                           .statusEv "generating" "Generating image...",
                           .statusEv "uploading" "Uploading to storage...",
                           .successEv cid]) := by
  refine ⟨by simp [streamHeaders], ?_, ?_⟩
  · intro ch hch
    unfold streamChunks at hch
    rcases List.mem_map.mp hch with ⟨ev, hev, hche⟩
    exact ⟨ev, hev, hche.symm⟩
  · intro cid hmem
    rcases POST_stream_events o with ⟨e, he⟩ | ⟨e, he⟩ | ⟨e, he⟩ | ⟨e, he⟩ | ⟨c, hc⟩
    · rw [he] at hmem; simp at hmem
    · rw [he] at hmem; simp at hmem
    · rw [he] at hmem; simp at hmem
    · rw [he] at hmem; simp at hmem
    · rw [hc] at hmem ⊢
      simp only [List.mem_cons, List.mem_singleton] at hmem
      rcases hmem with h | h | h | h | h
      all_goals first
        | (exfalso; exact StreamEvent.noConfusion h)
        | (rw [(StreamEvent.successEv.injEq _ _).mp h])
        | simp at h

def c8oracle : RouteOracle :=
  ⟨.ok ⟨some "a cat", some "c1", none, none, none⟩, some "k", .ok "c9", .ok [], .ok "m1",
   .ok ⟨"data:image/png;base64,x", none⟩, .ok "m2", .ok ("d", "h"), .ok "https://s",
   .ok "h", .ok "i1", .ok ()⟩

theorem c8_stream_protocol_witness :
    (POST_stream c8oracle).1 = [.statusEv "starting" "Initializing...",
                                .statusEv "generating" "Generating image...",
                                .statusEv "uploading" "Uploading to storage...",
                                .successEv "c1"] := by
  exact (c8_stream_protocol c8oracle).2.2 "c1" (by decide)

/-! ### Elements schema and `deleteElement`
(supabase/migrations/20260113000000_create_elements_tables.sql and
src/lib/supabase.ts) -/

structure ElementRow where
  id : String
  name : String
  color : String
deriving DecidableEq, Repr

structure ElementPhotoRow where
  id : String
  element_id : String
  photo_url : String
  position : Int
deriving DecidableEq, Repr

structure ElementsDB where
  elements : List ElementRow
  element_photos : List ElementPhotoRow
deriving DecidableEq, Repr

/-- `deleteElement`: `DELETE FROM elements WHERE id = ?`; the migration's
`element_id UUID NOT NULL REFERENCES elements(id) ON DELETE CASCADE` removes
every photo row referencing the deleted element. -/
def deleteElement (db : ElementsDB) (id : String) : ElementsDB :=
  { elements := db.elements.filter (fun e => !(e.id == id)),
    element_photos := db.element_photos.filter (fun p => !(p.element_id == id)) }

/-- Claim C9: deleting an element removes exactly that element and exactly
the photo rows referencing it; every other element and every photo of any
other element survives. -/
theorem c9_delete_element_cascade (db : ElementsDB) (id : String) :
    (∀ e : ElementRow, e ∈ (deleteElement db id).elements ↔ (e ∈ db.elements ∧ e.id ≠ id)) ∧
    (∀ p : ElementPhotoRow,
      p ∈ (deleteElement db id).element_photos ↔
        (p ∈ db.element_photos ∧ p.element_id ≠ id)) := by
  constructor
  · intro e
    unfold deleteElement
    simp [List.mem_filter]
  · intro p
    unfold deleteElement
    simp [List.mem_filter]

/-! ### Client-side element photo operations (src/utils/elementUtils.ts)

`uuidv4()` results are inputs (`newId`, or `uuid` indexed per photo) and
`new Date().toISOString()` is the input `now`. -/

structure ElementPhoto where
  id : String
  url : String
deriving DecidableEq, Repr

structure Element where
  id : String
  name : String
  color : String
  photos : List ElementPhoto
  createdAt : String
  updatedAt : String
deriving DecidableEq, Repr

def createNewElement (name color newId now : String) : Element :=
  ⟨newId, name, color, [], now, now⟩

def renameElement (e : Element) (newName now : String) : Element :=
  { e with name := newName, updatedAt := now }

def changeElementColor (e : Element) (newColor now : String) : Element :=
  { e with color := newColor, updatedAt := now }

/-- `addPhotoToElement`: null when the 5-photo limit is reached. -/
def addPhotoToElement (e : Element) (photoUrl newId now : String) : Option Element :=
  if 5 ≤ e.photos.length then none
  else some { e with photos := e.photos ++ [⟨newId, photoUrl⟩], updatedAt := now }

/-- `addPhotosToElement`: null when adding all the URLs would exceed the
limit; `remainingSlots` is the JS number `5 - photos.length`. -/
def addPhotosToElement (e : Element) (photoUrls : List String) (uuid : Nat → String)
    (now : String) : Option Element :=
  let remainingSlots : Int := 5 - e.photos.length
  if (photoUrls.length : Int) > remainingSlots then none
  else some { e with
    photos := e.photos ++ (photoUrls.enum.map (fun q => ⟨uuid q.1, q.2⟩)),
    updatedAt := now }

def removePhotoFromElement (e : Element) (photoId now : String) : Element :=
  { e with photos := e.photos.filter (fun p => !(p.id == photoId)), updatedAt := now }

def removePhotosFromElement (e : Element) (photoIds : List String) (now : String) : Element :=
  { e with photos := e.photos.filter (fun p => !(photoIds.contains p.id)), updatedAt := now }

def canAddPhotos (e : Element) (count : Nat) : Bool :=
  e.photos.length + count ≤ 5

/-- The client-side element operations, with their nondeterministic inputs
(fresh ids, timestamps) as constructor data.  A rejected add (null) leaves
the element unchanged. -/
inductive ElementOp where
  | rename (newName now : String)
  | changeColor (newColor now : String)
  | addPhoto (url newId now : String)
  | addPhotos (urls : List String) (uuid : Nat → String) (now : String)
  | removePhoto (photoId now : String)
  | removePhotos (photoIds : List String) (now : String)

def applyOp (e : Element) (op : ElementOp) : Element :=
  match op with
  | .rename n now => renameElement e n now
  | .changeColor c now => changeElementColor e c now
  | .addPhoto u i now => (addPhotoToElement e u i now).getD e
  | .addPhotos us uuid now => (addPhotosToElement e us uuid now).getD e
  | .removePhoto pid now => removePhotoFromElement e pid now
  | .removePhotos pids now => removePhotosFromElement e pids now

theorem applyOp_le_five {e : Element} (he : e.photos.length ≤ 5) (op : ElementOp) :
    (applyOp e op).photos.length ≤ 5 := by
  cases op with
  | rename n now => exact he
  | changeColor c now => exact he
  | addPhoto u i now =>
    show ((addPhotoToElement e u i now).getD e).photos.length ≤ 5
    unfold addPhotoToElement
    by_cases h : 5 ≤ e.photos.length
    · rw [if_pos h]
      exact he
    · rw [if_neg h]
      simp only [Option.getD_some, List.length_append, List.length_singleton]
      omega
  | addPhotos us uuid now =>
    show ((addPhotosToElement e us uuid now).getD e).photos.length ≤ 5
    unfold addPhotosToElement
    by_cases h : (us.length : Int) > 5 - e.photos.length
    · rw [if_pos h]
      exact he
    · rw [if_neg h]
      simp only [Option.getD_some, List.length_append, List.length_map, List.enum_length]
      omega
  | removePhoto pid now =>
    show (removePhotoFromElement e pid now).photos.length ≤ 5
    exact le_trans (List.length_filter_le _ _) he
  | removePhotos pids now =>
    show (removePhotosFromElement e pids now).photos.length ≤ 5
    exact le_trans (List.length_filter_le _ _) he

/-- Claim C10: any sequence of element operations starting from an element
with at most 5 photos keeps at most 5 photos; `addPhotoToElement` is null
exactly when the element already holds 5 (or more) photos;
`addPhotosToElement` is null exactly when the current count plus the new
URLs would exceed 5; `canAddPhotos` is true exactly when the current count
plus the requested count is at most 5. -/
theorem c10_element_photo_limit (e : Element) (he : e.photos.length ≤ 5) :
    (∀ ops : List ElementOp, (ops.foldl applyOp e).photos.length ≤ 5) ∧
    (∀ url newId now, addPhotoToElement e url newId now = none ↔ 5 ≤ e.photos.length) ∧
    (∀ urls uuid now, addPhotosToElement e urls uuid now = none ↔
      5 < e.photos.length + urls.length) ∧
    (∀ count, canAddPhotos e count = true ↔ e.photos.length + count ≤ 5) := by
  refine ⟨?_, ?_, ?_, ?_⟩
  · intro ops
    induction ops generalizing e with
    | nil => exact he
    | cons op rest ih =>
      simpa using ih (e := applyOp e op) (applyOp_le_five he op)
  · intro url newId now
    unfold addPhotoToElement
    by_cases h : 5 ≤ e.photos.length
    · rw [if_pos h]
      simp [h]
    · rw [if_neg h]
      simp [h]
  · intro urls uuid now
    unfold addPhotosToElement
    by_cases h : (urls.length : Int) > 5 - e.photos.length
    · rw [if_pos h]
      constructor
      · intro _
        omega
      · intro _
        rfl
    · rw [if_neg h]
      constructor
      · intro hc
        exact absurd hc (by simp)
      · intro hc
        omega
  · intro count
    unfold canAddPhotos
    simp

theorem c10_element_photo_limit_witness :
    (addPhotoToElement ⟨"i", "n", "c", [], "t", "t"⟩ "u" "p1" "t2" = none ↔
      5 ≤ (⟨"i", "n", "c", [], "t", "t"⟩ : Element).photos.length) :=
  (c10_element_photo_limit ⟨"i", "n", "c", [], "t", "t"⟩ (by decide)).2.1 "u" "p1" "t2"

end Zavira
